import Mathlib

/-!
A verification development for the clipboard/paste reconciler of the
Custom-Python-File-Explorer repository (`customfileExplorer.py`).

The embedding translates the operations of the `CustomPopup` class that
touch the clipboard and the filesystem: `selected_paths`, `on_copy`,
`on_paste` (external/system-clipboard branch, internal-clipboard branch,
per-entry processing with conflict resolution and the cut-with-fallback
path) and `on_delete`.  Paths are strings; the filesystem is a finite
association list from path strings to nodes (file-with-content or
directory).  The filesystem primitives consumed by the program
(`shutil.move`, `shutil.copytree`, `shutil.copy2`, `shutil.rmtree`,
`os.remove`) are modelled as atomic operations that may also fail through
an injected fault oracle carried by an environment record, reflecting
OS-level failures (permissions, cross-device moves) that are invisible in
the pure state.
-/

set_option autoImplicit false

namespace FileExplorer

/-! ## Path helpers (os.path) -/

/-- Modelled from the spec: path-join of the filesystem contract (section 6),
as `os.path.join(dir, name)` behaves on POSIX: an absolute second component
replaces the first, otherwise a single separator is inserted unless the
first component is empty or already ends in a separator. -/
def joinPath (d b : String) : String :=
  if b.data.head? = some '/' then b
  else if d.data.getLast? = some '/' ∨ d.data = [] then ⟨d.data ++ b.data⟩
  else ⟨d.data ++ '/' :: b.data⟩

/-- Modelled from the spec: basename of the filesystem contract (section 6),
as `os.path.basename`: the maximal suffix without a separator. -/
def basename (p : String) : String :=
  ⟨(p.data.reverse.takeWhile (fun c => c != '/')).reverse⟩

/-- Index of the last occurrence of `c` in `l`, if any. -/
def lastIdxOf (c : Char) (l : List Char) : Option Nat :=
  match l.reverse.findIdx? (fun d => d == c) with
  | some k => some (l.length - 1 - k)
  | none => none

/-- Modelled from the spec: basename/extension split of the filesystem
contract (section 6), as `os.path.splitext` on POSIX: split at the last dot
that comes after the last separator, unless every character between them is
a dot (so dotfiles such as `.bashrc` keep their whole name). -/
def splitextList (l : List Char) : List Char × List Char :=
  let sep : Int := match lastIdxOf '/' l with | some k => (k : Int) | none => -1
  let dot : Int := match lastIdxOf '.' l with | some k => (k : Int) | none => -1
  if sep < dot then
    let dotN := dot.toNat
    let name := (l.take dotN).drop (sep + 1).toNat
    if name.any (fun c => c != '.') then (l.take dotN, l.drop dotN) else (l, [])
  else (l, [])

/-- String wrapper around `splitextList`. -/
def splitext (p : String) : String × String :=
  let q := splitextList p.data
  (⟨q.1⟩, ⟨q.2⟩)

/-- Boolean test that `l1` is an initial segment of `l2`. -/
def leadsWith : List Char → List Char → Bool
  | [], _ => true
  | _ :: _, [] => false
  | a :: as, b :: bs => a == b && leadsWith as bs

/-- `q` lies in the subtree rooted at `root`: it is `root` itself or has
`root ++ "/"` as a path-component boundary before it. -/
def inSubtree (root q : String) : Bool :=
  q == root || leadsWith (root.data ++ ['/']) q.data

/-- Re-root a path `q` of the subtree of `src` under `dest`:
`dest ++ q[len(src):]`. -/
def retarget (src dest q : String) : String :=
  ⟨dest.data ++ q.data.drop src.data.length⟩

/-! ## Filesystem model -/

/-- A filesystem node: a regular file with its content, or a directory. -/
inductive FsNode
  | file (content : String)
  | dir
deriving DecidableEq, Repr

/-- The filesystem: an association list from absolute path strings to
nodes.  Lookup takes the first match, so prepending shadows. -/
abbrev FS := List (String × FsNode)

/-- First-match lookup. -/
def FS.lookup : FS → String → Option FsNode
  | [], _ => none
  | (q, n) :: rest, p => if q == p then some n else FS.lookup rest p

/-- Remove every binding of path `p`. -/
def FS.erase (fs : FS) (p : String) : FS :=
  fs.filter (fun e => !(e.1 == p))

/-- Bind path `p` to node `n`, dropping previous bindings of `p`. -/
def FS.set (fs : FS) (p : String) (n : FsNode) : FS :=
  (p, n) :: FS.erase fs p

/-- `os.path.exists`. -/
def os_path_exists (fs : FS) (p : String) : Bool :=
  (FS.lookup fs p).isSome

/-- `os.path.isdir`. -/
def os_path_isdir (fs : FS) (p : String) : Bool :=
  match FS.lookup fs p with
  | some FsNode.dir => true
  | _ => false

/-- All entries of the subtree rooted at `root` (the root included). -/
def subtreeEntries (fs : FS) (root : String) : FS :=
  fs.filter (fun e => inSubtree root e.1)

/-! ## Environment: path resolution and fault injection -/

/-- Modelled from the spec: the environment of the reconciler.  `abspath`
is `os.path.abspath` (resolution against the process working directory is
outside the program).  The `fault*` fields are the fault oracle of the
filesystem contract of section 6: a primitive "may fail" for OS-level
reasons (permissions, cross-device move) invisible in the pure filesystem
state; `some msg` injects such a failure with message `msg`. -/
structure Env where
  abspath : String → String
  faultMove : String → String → Option String
  faultCopytree : String → String → Option String
  faultCopy2 : String → String → Option String
  faultRmtree : String → Option String
  faultRemove : String → Option String

/-- Modelled from the spec: `shutil.move` of the filesystem contract
(section 6) — atomic move of a file or a whole subtree, which may also
fail through the fault oracle and then leaves the state unchanged. -/
def shutil_move (env : Env) (fs : FS) (src dest : String) : Except String FS :=
  match env.faultMove src dest with
  | some e => Except.error e
  | none =>
    if os_path_exists fs src = false then
      Except.error ("No such file or directory: " ++ src)
    else if os_path_exists fs dest then
      Except.error ("Destination path already exists: " ++ dest)
    else
      Except.ok ((subtreeEntries fs src).map (fun e => (retarget src dest e.1, e.2))
        ++ fs.filter (fun e => !(inSubtree src e.1)))

/-- Modelled from the spec: `shutil.copytree` of the filesystem contract
(section 6) — recursive duplication of a directory subtree; fails if the
source is not a directory or the destination already exists
(`FileExistsError`), or through the fault oracle; failure is atomic. -/
def shutil_copytree (env : Env) (fs : FS) (src dest : String) : Except String FS :=
  match env.faultCopytree src dest with
  | some e => Except.error e
  | none =>
    if os_path_isdir fs src = false then
      Except.error ("Not a directory: " ++ src)
    else if os_path_exists fs dest then
      Except.error ("File exists: " ++ dest)
    else
      Except.ok ((subtreeEntries fs src).map (fun e => (retarget src dest e.1, e.2)) ++ fs)

/-- Modelled from the spec: `shutil.copy2` of the filesystem contract
(section 6) — single-file content-and-metadata duplicate; overwrites an
existing destination file, fails on a missing or directory source or a
directory destination, or through the fault oracle; failure is atomic. -/
def shutil_copy2 (env : Env) (fs : FS) (src dest : String) : Except String FS :=
  match env.faultCopy2 src dest with
  | some e => Except.error e
  | none =>
    match FS.lookup fs src with
    | some (FsNode.file c) =>
      match FS.lookup fs dest with
      | some FsNode.dir => Except.error ("Is a directory: " ++ dest)
      | _ => Except.ok (FS.set fs dest (FsNode.file c))
    | some FsNode.dir => Except.error ("Is a directory: " ++ src)
    | none => Except.error ("No such file or directory: " ++ src)

/-- Modelled from the spec: `shutil.rmtree` of the filesystem contract
(section 6) — recursive removal of a directory subtree; fails if the path
is not a directory, or through the fault oracle; failure is atomic. -/
def shutil_rmtree (env : Env) (fs : FS) (p : String) : Except String FS :=
  match env.faultRmtree p with
  | some e => Except.error e
  | none =>
    if os_path_isdir fs p then
      Except.ok (fs.filter (fun e => !(inSubtree p e.1)))
    else
      Except.error ("Not a directory: " ++ p)

/-- Modelled from the spec: `os.remove` of the filesystem contract
(section 6) — single-file removal; raises `FileNotFoundError` on a missing
path and `IsADirectoryError` on a directory, and may fail through the
fault oracle; failure is atomic. -/
def os_remove (env : Env) (fs : FS) (p : String) : Except String FS :=
  match env.faultRemove p with
  | some e => Except.error e
  | none =>
    match FS.lookup fs p with
    | some (FsNode.file _) => Except.ok (FS.erase fs p)
    | some FsNode.dir => Except.error ("Is a directory: " ++ p)
    | none => Except.error ("No such file or directory: " ++ p)

/-! ## Session and clipboard data model -/

/-- The mutable clipboard state of `CustomPopup`: `_clipboard_paths` and
`_clipboard_is_cut` (`customfileExplorer.py` lines 186-187). -/
structure Session where
  clipboard_paths : List String
  clipboard_is_cut : Bool
deriving DecidableEq, Repr

/-- A clipboard URL, as the `QUrl` values consulted by `on_paste`:
`isLocalFile` and `toLocalFile`. -/
structure Url where
  isLocalFile : Bool
  toLocalFile : String
deriving DecidableEq, Repr

/-- The mime data of the OS clipboard, as consulted by `on_paste`
(`cb.mimeData()`): a list of URLs; `hasUrls` is its non-emptiness. -/
structure MimeData where
  urls : List Url
deriving DecidableEq, Repr

/-- The OS clipboard: `QApplication.clipboard().mimeData()` may be null. -/
structure SysClipboard where
  mime : Option MimeData
deriving DecidableEq, Repr

/-- The local file paths extracted from mime data by `on_paste` line 483:
`[u.toLocalFile() for u in urls if u.isLocalFile()]`. -/
def localPaths (m : MimeData) : List String :=
  (m.urls.filter (fun u => u.isLocalFile)).map (fun u => u.toLocalFile)

/-! ## Source-selection collector (`selected_paths`, lines 447-456) -/

/-- The loop of `selected_paths`: walk the selected indexes' paths, append
each path not yet seen to `paths` and record it in `seen`. -/
def selected_paths_loop : List String → List String → List String → List String
  | [], paths, _ => paths
  | p :: rest, paths, seen =>
    if seen.contains p then selected_paths_loop rest paths seen
    else selected_paths_loop rest (paths ++ [p]) (seen ++ [p])

/-- `CustomPopup.selected_paths` (lines 447-456), with the selection
already projected through `model.filePath` to its list of path strings. -/
def selected_paths (selection : List String) : List String :=
  selected_paths_loop selection [] []

/-- Modelled from the spec: section 4.1's description of the collector,
"deduplicated, preserving first-seen order", written independently of the
implementation: keep the head and deduplicate the tail with every later
occurrence of the head removed. -/
def specFirstSeenDedup : List String → List String
  | [] => []
  | a :: l => a :: specFirstSeenDedup (l.filter (fun b => !(b == a)))
termination_by l => l.length
decreasing_by
  simp only [List.length_cons]
  exact Nat.lt_succ_of_le (List.length_filter_le _ _)

/-! ## Stage for copy (`on_copy`, lines 458-466) -/

/-- `CustomPopup.on_copy` (lines 458-466): on a non-empty selection,
replace the internal clipboard with the selection and clear the cut flag,
and place the paths as local-file URLs into the OS clipboard
(`_place_paths_in_system_clipboard`, lines 617-629).  An empty selection
only shows a notice. -/
def on_copy (selection : List String) (s : Session) (sys : SysClipboard) :
    Session × SysClipboard :=
  let paths := selected_paths selection
  if paths.isEmpty then (s, sys)
  else
    ({ clipboard_paths := paths, clipboard_is_cut := false },
     { mime := some { urls := paths.map (fun p => { isLocalFile := true, toLocalFile := p }) } })

/-! ## Paste (`on_paste`, lines 468-593) -/

/-- The per-entry outcome of the paste loops. -/
inductive EntryResult
  | skippedMissing
  | selfPaste
  | ok
  | failed (msg : String)
deriving DecidableEq, Repr

/-- The destination computed for one pasted entry (lines 490-499 and
530-541): destination directory joined with the source's basename; if a
node already exists there, the `_copy` suffix is inserted between the
basename's stem and extension as split by `os.path.splitext`. -/
def computedDest (dest_dir src : String) (fs : FS) : String :=
  let base := basename src
  let dest := joinPath dest_dir base
  if os_path_exists fs dest then
    joinPath dest_dir ((splitext base).1 ++ "_copy" ++ (splitext base).2)
  else dest

/-- One entry of the system-clipboard branch of `on_paste`
(lines 485-507): skip a vanished source, reject a self-paste, resolve the
name conflict, then `copytree` for a directory and `copy2` otherwise; a
primitive failure is reported as a warning. -/
def pasteEntrySystem (env : Env) (dest_dir src : String) (fs : FS) : FS × EntryResult :=
  if os_path_exists fs src = false then (fs, EntryResult.skippedMissing)
  else if env.abspath src == env.abspath dest_dir then (fs, EntryResult.selfPaste)
  else
    let dest := computedDest dest_dir src fs
    if os_path_isdir fs src then
      match shutil_copytree env fs src dest with
      | Except.ok fs' => (fs', EntryResult.ok)
      | Except.error e => (fs, EntryResult.failed e)
    else
      match shutil_copy2 env fs src dest with
      | Except.ok fs' => (fs', EntryResult.ok)
      | Except.error e => (fs, EntryResult.failed e)

/-- One entry of the internal-clipboard branch of `on_paste`
(lines 525-573): skip a vanished source, reject a self-paste, resolve the
name conflict; in cut mode try `shutil.move` first and on any failure fall
back to copy-then-delete-source (`copytree`+`rmtree` for a directory,
`copy2`+`os.remove` for a file), recording a fallback failure with the
fallback's error; in copy mode `copytree`/`copy2` with failures
recorded. -/
def pasteEntryInternal (env : Env) (isCut : Bool) (dest_dir src : String) (fs : FS) :
    FS × EntryResult :=
  if os_path_exists fs src = false then (fs, EntryResult.skippedMissing)
  else if env.abspath src == env.abspath dest_dir then (fs, EntryResult.selfPaste)
  else
    let dest := computedDest dest_dir src fs
    if isCut then
      match shutil_move env fs src dest with
      | Except.ok fs' => (fs', EntryResult.ok)
      | Except.error _ =>
        if os_path_isdir fs src then
          match shutil_copytree env fs src dest with
          | Except.ok fs1 =>
            match shutil_rmtree env fs1 src with
            | Except.ok fs2 => (fs2, EntryResult.ok)
            | Except.error e => (fs1, EntryResult.failed e)
          | Except.error e => (fs, EntryResult.failed e)
        else
          match shutil_copy2 env fs src dest with
          | Except.ok fs1 =>
            match os_remove env fs1 src with
            | Except.ok fs2 => (fs2, EntryResult.ok)
            | Except.error e => (fs1, EntryResult.failed e)
          | Except.error e => (fs, EntryResult.failed e)
    else
      if os_path_isdir fs src then
        match shutil_copytree env fs src dest with
        | Except.ok fs' => (fs', EntryResult.ok)
        | Except.error e => (fs, EntryResult.failed e)
      else
        match shutil_copy2 env fs src dest with
        | Except.ok fs' => (fs', EntryResult.ok)
        | Except.error e => (fs, EntryResult.failed e)

/-- The system-clipboard loop of `on_paste` (lines 485-507), recording
each entry's result in order. -/
def pasteLoopSystem (env : Env) (dest_dir : String) :
    List String → FS → FS × List EntryResult
  | [], fs => (fs, [])
  | src :: rest, fs =>
    let r := pasteEntrySystem env dest_dir src fs
    let t := pasteLoopSystem env dest_dir rest r.1
    (t.1, r.2 :: t.2)

/-- The internal-clipboard loop of `on_paste` (lines 525-573), carrying
`pasted_count` and `failed_paths` exactly as the Python loop does: a
successful entry increments the count, a failed entry is appended to the
failed list with its message, skipped entries touch neither. -/
def pasteLoopInternal (env : Env) (isCut : Bool) (dest_dir : String) :
    List String → FS → Nat → List (String × String) → FS × Nat × List (String × String)
  | [], fs, n, failed => (fs, n, failed)
  | src :: rest, fs, n, failed =>
    match pasteEntryInternal env isCut dest_dir src fs with
    | (fs', EntryResult.ok) => pasteLoopInternal env isCut dest_dir rest fs' (n + 1) failed
    | (fs', EntryResult.failed e) =>
      pasteLoopInternal env isCut dest_dir rest fs' n (failed ++ [(src, e)])
    | (fs', _) => pasteLoopInternal env isCut dest_dir rest fs' n failed

/-- The observable outcome of one `on_paste` invocation. -/
inductive PasteOutcome
  | invalidTarget
  | system (reported : Nat) (results : List EntryResult)
  | emptyClipboard
  | internal (pasted : Nat) (failed : List (String × String))
deriving DecidableEq, Repr

/-- The internal-clipboard part of `on_paste` (lines 514-593): report
`EmptyClipboard` on an empty internal clipboard, otherwise run the loop
over a copy of the clipboard; afterwards, for a cut clipboard with
failures keep only the clipboard paths not in the failed list (the code's
`successful_paths`), for a cut clipboard with no failures clear the
clipboard and reset the cut flag, and for a copy clipboard leave the
session unchanged. -/
def on_paste_internal (env : Env) (s : Session) (dest_dir : String) (fs : FS) :
    Session × FS × PasteOutcome :=
  if s.clipboard_paths.isEmpty then (s, fs, PasteOutcome.emptyClipboard)
  else
    let clipboard_paths := s.clipboard_paths
    let clipboard_is_cut := s.clipboard_is_cut
    let r := pasteLoopInternal env clipboard_is_cut dest_dir clipboard_paths fs 0 []
    let failed := r.2.2
    let s' :=
      if clipboard_is_cut then
        if !failed.isEmpty then
          { s with clipboard_paths :=
              clipboard_paths.filter (fun p => !((failed.map Prod.fst).contains p)) }
        else
          { clipboard_paths := [], clipboard_is_cut := false }
      else s
    (s', r.1, PasteOutcome.internal r.2.1 failed)

/-- `CustomPopup.on_paste` (lines 468-593): abort with `InvalidTarget`
when the current location is not a directory; otherwise, when the OS
clipboard carries mime data with URLs, paste the local files among them
with copy semantics (system branch, lines 481-512, which reports
`len(paths)` and returns without consulting the internal clipboard);
otherwise fall through to the internal-clipboard branch. -/
def on_paste (env : Env) (md : Option MimeData) (s : Session) (dest_dir : String) (fs : FS) :
    Session × FS × PasteOutcome :=
  if os_path_isdir fs dest_dir then
    match md with
    | some m =>
      if m.urls.isEmpty then on_paste_internal env s dest_dir fs
      else
        let paths := localPaths m
        let r := pasteLoopSystem env dest_dir paths fs
        (s, r.1, PasteOutcome.system paths.length r.2)
    | none => on_paste_internal env s dest_dir fs
  else (s, fs, PasteOutcome.invalidTarget)

/-! ## Delete (`on_delete`, lines 595-615) -/

/-- The loop of `on_delete` (lines 603-610): for each path, `rmtree` a
directory and `os.remove` anything else; an exception is surfaced as a
warning message and processing continues with the rest. -/
def deleteLoop (env : Env) : List String → FS → FS × List String
  | [], fs => (fs, [])
  | p :: rest, fs =>
    let r : FS × List String :=
      if os_path_isdir fs p then
        match shutil_rmtree env fs p with
        | Except.ok f => (f, [])
        | Except.error e => (fs, [e])
      else
        match os_remove env fs p with
        | Except.ok f => (f, [])
        | Except.error e => (fs, [e])
    let t := deleteLoop env rest r.1
    (t.1, r.2 ++ t.2)

/-- `CustomPopup.on_delete` (lines 595-615): nothing happens without a
selection or without confirmation; otherwise every selected path is
processed by the loop and the status reports `len(paths)` — the number of
attempted entries, whether or not each succeeded.  The returned
`Option Nat` is that reported count (`none` when the operation did not
run) and the list collects the surfaced warning messages. -/
def on_delete (env : Env) (selection : List String) (confirmed : Bool) (fs : FS) :
    FS × Option Nat × List String :=
  let paths := selected_paths selection
  if paths.isEmpty then (fs, none, [])
  else if confirmed = false then (fs, none, [])
  else
    let r := deleteLoop env paths fs
    (r.1, some paths.length, r.2)

/-! ## The reachable session states -/

/-- The clipboard-relevant operations the UI wires up (`_build_ui`,
lines 249-314, and `keyPressEvent`, lines 632-639): copy, paste and
delete.  No cut action is ever connected — `buttons_info` lists a cut
tooltip but no cut button is built and no key binding calls a cut
handler — and navigation never touches the clipboard. -/
inductive Op
  | copy (selection : List String)
  | paste (env : Env) (md : Option MimeData) (dest_dir : String)
  | delete (env : Env) (selection : List String) (confirmed : Bool)

/-- The state a session step acts on: clipboard session, filesystem and
OS clipboard. -/
structure AppState where
  session : Session
  fs : FS
  sys : SysClipboard

/-- One UI operation applied to the application state. -/
def step (st : AppState) : Op → AppState
  | Op.copy selection =>
    let r := on_copy selection st.session st.sys
    { st with session := r.1, sys := r.2 }
  | Op.paste env md dest_dir =>
    let r := on_paste env md st.session dest_dir st.fs
    { st with session := r.1, fs := r.2.1 }
  | Op.delete env selection confirmed =>
    let r := on_delete env selection confirmed st.fs
    { st with fs := r.1 }

/-- The reachable application states: a fresh `CustomPopup` starts with an
empty clipboard and the cut flag `False` (`__init__`, lines 186-187), over
an arbitrary filesystem and OS clipboard, and evolves by the wired
operations. -/
inductive Reachable : AppState → Prop
  | init (fs : FS) (sys : SysClipboard) :
      Reachable ⟨⟨[], false⟩, fs, sys⟩
  | step (st : AppState) (op : Op) : Reachable st → Reachable (step st op)

/-! ## Helper lemmas -/

theorem str_data_append (s t : String) : (s ++ t).data = s.data ++ t.data := rfl

theorem str_ne_of_data_ne {s t : String} (h : s.data ≠ t.data) : s ≠ t :=
  fun he => h (congrArg String.data he)

theorem leadsWith_iff (l1 l2 : List Char) :
    leadsWith l1 l2 = true ↔ ∃ t, l2 = l1 ++ t := by
  induction l1 generalizing l2 with
  | nil => simp [leadsWith]
  | cons a as ih =>
    cases l2 with
    | nil => simp [leadsWith]
    | cons b bs =>
      simp only [leadsWith, Bool.and_eq_true, beq_iff_eq, ih]
      constructor
      · rintro ⟨rfl, t, rfl⟩
        exact ⟨t, rfl⟩
      · rintro ⟨t, ht⟩
        simp only [List.cons_append, List.cons.injEq] at ht
        exact ⟨ht.1.symm, t, ht.2⟩

theorem FS.lookup_eq_none_of_keys {l : FS} {p : String} (h : ∀ e ∈ l, e.1 ≠ p) :
    FS.lookup l p = none := by
  induction l with
  | nil => rfl
  | cons e rest ih =>
    have hne : e.1 ≠ p := h e (List.mem_cons_self e rest)
    simp only [FS.lookup]
    rw [if_neg (by simpa using hne)]
    exact ih (fun e' he' => h e' (List.mem_cons_of_mem e he'))

theorem FS.lookup_append_left_none {l1 l2 : FS} {p : String}
    (h : FS.lookup l1 p = none) : FS.lookup (l1 ++ l2) p = FS.lookup l2 p := by
  induction l1 with
  | nil => rfl
  | cons e rest ih =>
    simp only [FS.lookup] at h ⊢
    by_cases he : e.1 == p
    · simp [he] at h
    · rw [if_neg (by simpa using he)] at h ⊢
      exact ih h

theorem FS.lookup_erase_ne {fs : FS} {p q : String} (h : q ≠ p) :
    FS.lookup (FS.erase fs p) q = FS.lookup fs q := by
  induction fs with
  | nil => rfl
  | cons e rest ih =>
    simp only [FS.erase, List.filter] at ih ⊢
    by_cases hep : e.1 == p
    · simp only [hep, Bool.not_true]
      have he1 : e.1 = p := by simpa using hep
      have hq : (e.1 == q) = false := by
        rw [he1]
        exact beq_eq_false_iff_ne.mpr (fun hh => h hh.symm)
      simp only [FS.lookup, hq, Bool.false_eq_true, if_false]
      exact ih
    · simp only [Bool.not_eq_true', eq_false_of_ne_true hep, Bool.not_false]
      simp only [FS.lookup]
      by_cases heq : e.1 == q
      · simp [heq]
      · rw [if_neg (by simpa using heq), if_neg (by simpa using heq)]
        exact ih

theorem FS.lookup_set_self (fs : FS) (p : String) (n : FsNode) :
    FS.lookup (FS.set fs p n) p = some n := by
  simp [FS.set, FS.lookup]

theorem FS.lookup_set_ne {fs : FS} {p : String} {n : FsNode} {q : String} (h : q ≠ p) :
    FS.lookup (FS.set fs p n) q = FS.lookup fs q := by
  simp only [FS.set, FS.lookup]
  rw [if_neg (by simpa using fun hh => h hh.symm)]
  exact FS.lookup_erase_ne h

theorem os_path_exists_of_lookup {fs : FS} {p : String} {n : FsNode}
    (h : FS.lookup fs p = some n) : os_path_exists fs p = true := by
  simp [os_path_exists, h]

theorem os_path_isdir_false_of_not_exists {fs : FS} {p : String}
    (h : os_path_exists fs p = false) : os_path_isdir fs p = false := by
  unfold os_path_exists at h
  cases hl : FS.lookup fs p with
  | none => simp [os_path_isdir, hl]
  | some n => rw [hl] at h; simp at h

theorem os_path_isdir_file {fs : FS} {p : String} {c : String}
    (h : FS.lookup fs p = some (FsNode.file c)) : os_path_isdir fs p = false := by
  simp [os_path_isdir, h]

theorem ne_of_inSubtree_false {r q : String} (h : inSubtree r q = false) : q ≠ r := by
  simp only [inSubtree, Bool.or_eq_false_iff] at h
  simpa using h.1

theorem inSubtree_retarget {src D q : String} (h : inSubtree src q = true) :
    inSubtree D (retarget src D q) = true := by
  simp only [inSubtree, Bool.or_eq_true, beq_iff_eq] at h
  rcases h with h | h
  · subst h
    have hret : retarget q D q = D := by
      simp only [retarget, List.drop_length, List.append_nil]
    simp [hret, inSubtree]
  · obtain ⟨t, ht⟩ := (leadsWith_iff _ _).mp h
    have hq : q.data = src.data ++ '/' :: t := by simpa using ht
    have hdrop : q.data.drop src.data.length = '/' :: t := by
      rw [hq]
      exact List.drop_left src.data ('/' :: t)
    simp only [inSubtree, retarget, hdrop, Bool.or_eq_true]
    right
    exact (leadsWith_iff _ _).mpr ⟨t, by simp⟩

theorem lookup_retargeted_none {fs : FS} {src D p : String}
    (hp : inSubtree D p = false) :
    FS.lookup ((subtreeEntries fs src).map (fun e => (retarget src D e.1, e.2))) p = none := by
  apply FS.lookup_eq_none_of_keys
  intro e he heq
  obtain ⟨a, ha, rfl⟩ := List.mem_map.mp he
  have hin : inSubtree src a.1 = true := by
    have := List.mem_filter.mp ha
    simpa using this.2
  have : inSubtree D p = true := by
    rw [← heq]
    exact inSubtree_retarget hin
  rw [this] at hp
  exact Bool.true_eq_false.mp hp

theorem shutil_copytree_ok_inv {env : Env} {fs : FS} {src dest : String} {fs' : FS}
    (h : shutil_copytree env fs src dest = Except.ok fs') :
    fs' = (subtreeEntries fs src).map (fun e => (retarget src dest e.1, e.2)) ++ fs := by
  unfold shutil_copytree at h
  split at h
  · exact absurd h (by simp)
  · split at h
    · exact absurd h (by simp)
    · split at h
      · exact absurd h (by simp)
      · simpa using h.symm

theorem shutil_copy2_ok_inv {env : Env} {fs : FS} {src dest : String} {fs' : FS}
    (h : shutil_copy2 env fs src dest = Except.ok fs') :
    ∃ c, FS.lookup fs src = some (FsNode.file c) ∧ fs' = FS.set fs dest (FsNode.file c) := by
  unfold shutil_copy2 at h
  split at h
  · exact absurd h (by simp)
  · split at h
    case _ c heq =>
      split at h
      · exact absurd h (by simp)
      · exact ⟨c, heq, by simpa using h.symm⟩
    · exact absurd h (by simp)
    · exact absurd h (by simp)

theorem copytree_ok_lookup {env : Env} {fs : FS} {src dest : String} {fs' : FS} {p : String}
    (h : shutil_copytree env fs src dest = Except.ok fs')
    (hp : inSubtree dest p = false) :
    FS.lookup fs' p = FS.lookup fs p := by
  rw [shutil_copytree_ok_inv h]
  exact FS.lookup_append_left_none (lookup_retargeted_none hp)

theorem splitextList_append (l : List Char) :
    (splitextList l).1 ++ (splitextList l).2 = l := by
  simp only [splitextList]
  split
  · split
    · exact List.take_append_drop _ l
    · simp
  · simp

theorem splitext_data (b : String) :
    (splitext b).1.data ++ (splitext b).2.data = b.data := by
  simpa [splitext] using splitextList_append b.data

theorem basename_noSlash (p : String) : ∀ c ∈ (basename p).data, c ≠ '/' := by
  intro c hc
  simp only [basename, List.mem_reverse] at hc
  have := List.mem_takeWhile_imp hc
  exact bne_iff_ne.mp this

theorem splitext_fst_subset {b : String} {c : Char}
    (h : c ∈ (splitext b).1.data) : c ∈ b.data := by
  rw [← splitext_data b]
  exact List.mem_append_left _ h

theorem splitext_snd_subset {b : String} {c : Char}
    (h : c ∈ (splitext b).2.data) : c ∈ b.data := by
  rw [← splitext_data b]
  exact List.mem_append_right _ h

theorem copyName_noSlash {b : String} (hb : ∀ c ∈ b.data, c ≠ '/') :
    ∀ c ∈ ((splitext b).1 ++ "_copy" ++ (splitext b).2).data, c ≠ '/' := by
  intro c hc
  rw [str_data_append, str_data_append] at hc
  rcases List.mem_append.mp hc with hc | hc
  · rcases List.mem_append.mp hc with hc | hc
    · exact hb c (splitext_fst_subset hc)
    · have : "_copy".data = ['_', 'c', 'o', 'p', 'y'] := rfl
      rw [this] at hc
      fin_cases hc <;> decide
  · exact hb c (splitext_snd_subset hc)

theorem copyName_length (b : String) :
    ((splitext b).1 ++ "_copy" ++ (splitext b).2).data.length = b.data.length + 5 := by
  have hlen : (splitext b).1.data.length + (splitext b).2.data.length = b.data.length := by
    have := congrArg List.length (splitext_data b)
    simpa using this
  have hd : ((splitext b).1 ++ "_copy" ++ (splitext b).2).data
      = (splitext b).1.data ++ "_copy".data ++ (splitext b).2.data := by
    rw [str_data_append, str_data_append]
  rw [hd, List.length_append, List.length_append]
  have h5 : "_copy".data.length = 5 := rfl
  omega

theorem head_ne_slash {b : String} (hb : ∀ c ∈ b.data, c ≠ '/') :
    b.data.head? ≠ some '/' := by
  intro hcs
  cases hd : b.data with
  | nil => rw [hd] at hcs; simp at hcs
  | cons c cs =>
    rw [hd] at hcs
    simp only [List.head?, Option.some.injEq] at hcs
    exact hb c (by rw [hd]; exact List.mem_cons_self c cs) hcs

theorem joinPath_ne {d b1 b2 : String}
    (h1 : ∀ c ∈ b1.data, c ≠ '/') (h2 : ∀ c ∈ b2.data, c ≠ '/')
    (hlen : b1.data.length ≠ b2.data.length) :
    joinPath d b1 ≠ joinPath d b2 := by
  simp only [joinPath]
  rw [if_neg (head_ne_slash h1), if_neg (head_ne_slash h2)]
  by_cases hd : d.data.getLast? = some '/' ∨ d.data = []
  · rw [if_pos hd, if_pos hd]
    apply str_ne_of_data_ne
    intro he
    have := congrArg List.length he
    simp only [List.length_append] at this
    omega
  · rw [if_neg hd, if_neg hd]
    apply str_ne_of_data_ne
    intro he
    have := congrArg List.length he
    simp only [List.length_append, List.length_cons] at this
    omega

theorem origDest_ne_copyName (dest_dir src : String) :
    joinPath dest_dir (basename src) ≠
      joinPath dest_dir
        ((splitext (basename src)).1 ++ "_copy" ++ (splitext (basename src)).2) := by
  apply joinPath_ne (basename_noSlash src) (copyName_noSlash (basename_noSlash src))
  rw [copyName_length]
  omega

theorem contains_iff {l : List String} {a : String} : l.contains a = true ↔ a ∈ l :=
  List.elem_iff

theorem contains_false_iff {l : List String} {a : String} :
    l.contains a = false ↔ a ∉ l := by
  constructor
  · intro h hm
    rw [contains_iff.mpr hm] at h
    exact Bool.true_eq_false.mp h
  · intro h
    cases hc : l.contains a with
    | false => rfl
    | true => exact absurd (contains_iff.mp hc) h

theorem selected_paths_loop_append (l : List String) :
    ∀ paths seen, selected_paths_loop l paths seen
      = paths ++ selected_paths_loop l [] seen := by
  induction l with
  | nil => intro paths seen; simp [selected_paths_loop]
  | cons p rest ih =>
    intro paths seen
    simp only [selected_paths_loop]
    by_cases hc : seen.contains p = true
    · rw [if_pos hc, if_pos hc, ih paths seen]
    · rw [if_neg hc, if_neg hc, ih (paths ++ [p]), ih ([] ++ [p])]
      simp [List.append_assoc]

theorem filter_seen_snoc (rest seen : List String) (p : String) :
    rest.filter (fun b => !((seen ++ [p]).contains b))
      = (rest.filter (fun b => !(seen.contains b))).filter (fun b => !(b == p)) := by
  rw [List.filter_filter]
  apply List.filter_congr
  intro b _
  by_cases hm : b ∈ seen
  · have h1 : (seen ++ [p]).contains b = true := contains_iff.mpr (List.mem_append_left _ hm)
    have h2 : seen.contains b = true := contains_iff.mpr hm
    rw [h1, h2]
    simp
  · by_cases hp : b = p
    · subst hp
      have h1 : (seen ++ [b]).contains b = true :=
        contains_iff.mpr (List.mem_append_right _ (List.mem_cons_self b []))
      rw [h1]
      simp
    · have h1 : (seen ++ [p]).contains b = false := by
        rw [contains_false_iff, List.mem_append]
        rintro (h | h)
        · exact hm h
        · exact hp (by simpa using h)
      have h2 : seen.contains b = false := contains_false_iff.mpr hm
      have h3 : (b == p) = false := beq_eq_false_iff_ne.mpr hp
      rw [h1, h2, h3]
      simp

theorem selected_paths_loop_spec (l : List String) :
    ∀ seen, selected_paths_loop l [] seen
      = specFirstSeenDedup (l.filter (fun b => !(seen.contains b))) := by
  induction l with
  | nil => intro seen; simp [selected_paths_loop, specFirstSeenDedup]
  | cons p rest ih =>
    intro seen
    simp only [selected_paths_loop, List.filter]
    by_cases hc : seen.contains p = true
    · rw [if_pos hc]
      simp only [hc, Bool.not_true]
      exact ih seen
    · rw [if_neg hc]
      have hcf : seen.contains p = false := by
        cases h : seen.contains p with
        | false => rfl
        | true => exact absurd h hc
      simp only [hcf, Bool.not_false, List.nil_append]
      rw [selected_paths_loop_append rest [p], ih (seen ++ [p]), filter_seen_snoc]
      rw [specFirstSeenDedup]
      simp

theorem selected_paths_eq_spec (sel : List String) :
    selected_paths sel = specFirstSeenDedup sel := by
  unfold selected_paths
  rw [selected_paths_loop_spec sel []]
  congr 1
  have : (fun b : String => !(([] : List String).contains b)) = fun _ => true := rfl
  rw [this, List.filter_true]

theorem specFirstSeenDedup_sublist : ∀ (l : List String),
    (specFirstSeenDedup l).Sublist l
  | [] => by simp [specFirstSeenDedup]
  | a :: l => by
    simp only [specFirstSeenDedup]
    exact List.Sublist.cons₂ a
      ((specFirstSeenDedup_sublist (l.filter fun b => !(b == a))).trans
        (List.filter_sublist l))
termination_by l => l.length
decreasing_by
  simp only [List.length_cons]
  exact Nat.lt_succ_of_le (List.length_filter_le _ _)

theorem mem_specFirstSeenDedup : ∀ (l : List String) (b : String),
    b ∈ specFirstSeenDedup l ↔ b ∈ l
  | [], b => by simp [specFirstSeenDedup]
  | a :: l, b => by
    simp only [specFirstSeenDedup, List.mem_cons]
    rw [mem_specFirstSeenDedup (l.filter fun x => !(x == a)) b]
    by_cases hb : b = a
    · simp [hb]
    · have hba : (b == a) = false := beq_eq_false_iff_ne.mpr hb
      simp [List.mem_filter, hb, hba]
termination_by l => l.length
decreasing_by
  simp only [List.length_cons]
  exact Nat.lt_succ_of_le (List.length_filter_le _ _)

theorem specFirstSeenDedup_nodup : ∀ (l : List String),
    (specFirstSeenDedup l).Nodup
  | [] => by simp [specFirstSeenDedup]
  | a :: l => by
    simp only [specFirstSeenDedup]
    rw [List.nodup_cons]
    refine ⟨?_, specFirstSeenDedup_nodup _⟩
    intro hmem
    rw [mem_specFirstSeenDedup] at hmem
    have := (List.mem_filter.mp hmem).2
    simp at this
termination_by l => l.length
decreasing_by
  simp only [List.length_cons]
  exact Nat.lt_succ_of_le (List.length_filter_le _ _)

/-! ## Lemmas about the paste and delete branches -/

theorem lookup_eq_none_of_not_exists {fs : FS} {p : String}
    (h : os_path_exists fs p = false) : FS.lookup fs p = none := by
  unfold os_path_exists at h
  cases hl : FS.lookup fs p with
  | none => rfl
  | some n => rw [hl] at h; simp at h

theorem on_paste_internal_cut_flag {env : Env} {s : Session} {dest_dir : String} {fs : FS}
    (h : s.clipboard_is_cut = false) :
    (on_paste_internal env s dest_dir fs).1.clipboard_is_cut = false := by
  unfold on_paste_internal
  split
  · simpa using h
  · simp [h]

theorem on_paste_cut_flag {env : Env} {md : Option MimeData} {s : Session}
    {dest_dir : String} {fs : FS} (h : s.clipboard_is_cut = false) :
    (on_paste env md s dest_dir fs).1.clipboard_is_cut = false := by
  unfold on_paste
  split
  · match md with
    | some m =>
      by_cases hu : m.urls.isEmpty = true
      · have hint : (on_paste_internal env s dest_dir fs).1.clipboard_is_cut = false :=
          on_paste_internal_cut_flag h
        simpa [hu] using hint
      · simpa [hu] using h
    | none => exact on_paste_internal_cut_flag h
  · simpa using h

/-! ## Witness fixtures -/

/-- A fault-free environment with identity path resolution. -/
def envW : Env :=
  { abspath := fun p => p
    faultMove := fun _ _ => none
    faultCopytree := fun _ _ => none
    faultCopy2 := fun _ _ => none
    faultRmtree := fun _ => none
    faultRemove := fun _ => none }

/-- An environment in which removing the path `/zz` fails with a
permission error. -/
def envFault : Env :=
  { envW with faultRemove := fun p => if p == "/zz" then some "permission denied" else none }

/-- An environment in which both the move of `/s/b` and its copy fallback
fail. -/
def envC1 : Env :=
  { envW with
    faultMove := fun s _ => if s == "/s/b" then some "move denied" else none
    faultCopy2 := fun s _ => if s == "/s/b" then some "copy denied" else none }

/-- A filesystem with a destination directory `/d` and two source files. -/
def fsC1 : FS :=
  [("/d", FsNode.dir), ("/s", FsNode.dir),
   ("/s/a", FsNode.file "A"), ("/s/b", FsNode.file "B")]

/-- A filesystem in which `/d` already contains `a.txt` and the source
`/s/a.txt` is to be pasted into `/d`. -/
def fsA : FS :=
  [("/d", FsNode.dir), ("/d/a.txt", FsNode.file "orig"),
   ("/s", FsNode.dir), ("/s/a.txt", FsNode.file "src")]

/-- A filesystem in which the directory `/s/data.old` is to be pasted into
`/d`, which already contains a directory named `data.old`. -/
def fsC6 : FS :=
  [("/d", FsNode.dir), ("/d/data.old", FsNode.dir),
   ("/s", FsNode.dir), ("/s/data.old", FsNode.dir),
   ("/s/data.old/f", FsNode.file "x")]

/-! ## Claims -/

/-- C10: the Source-Selection Collector (`selected_paths`) returns the
selection deduplicated by path-string identity preserving first-seen order
(it equals the specification-level first-seen deduplication), is a
subsequence of its input with no duplicates, keeps exactly the input's
paths (so paths supplied as absolute stay absolute), and maps an empty
selection to an empty result; as a total function it never errors. -/
theorem selected_paths_collector_correct :
    selected_paths [] = []
    ∧ (∀ sel, selected_paths sel = specFirstSeenDedup sel)
    ∧ (∀ sel, (selected_paths sel).Sublist sel)
    ∧ (∀ sel, (selected_paths sel).Nodup)
    ∧ (∀ sel p, p ∈ selected_paths sel ↔ p ∈ sel) := by
  refine ⟨rfl, selected_paths_eq_spec, ?_, ?_, ?_⟩
  · intro sel
    rw [selected_paths_eq_spec]
    exact specFirstSeenDedup_sublist sel
  · intro sel
    rw [selected_paths_eq_spec]
    exact specFirstSeenDedup_nodup sel
  · intro sel p
    rw [selected_paths_eq_spec]
    exact mem_specFirstSeenDedup sel p

/-- C4: a paste whose destination directory does not exist or is not a
directory fails with `InvalidTarget`, leaves the filesystem untouched and
leaves the internal Clipboard Entry unchanged, in every clipboard
configuration. -/
theorem paste_invalid_target_noop (env : Env) (md : Option MimeData) (s : Session)
    (dest_dir : String) (fs : FS) (h : os_path_isdir fs dest_dir = false) :
    on_paste env md s dest_dir fs = (s, fs, PasteOutcome.invalidTarget) := by
  simp [on_paste, h]

/-- Witness for C4 at a concrete state: the destination `/d` is missing
from the empty filesystem, so the paste is an `InvalidTarget` no-op. -/
theorem paste_invalid_target_noop_witness :
    os_path_isdir [] "/d" = false
    ∧ on_paste envW none ⟨["/x"], true⟩ "/d" []
        = (⟨["/x"], true⟩, [], PasteOutcome.invalidTarget) :=
  ⟨rfl, paste_invalid_target_noop envW none ⟨["/x"], true⟩ "/d" [] rfl⟩

/-- C2: in every reachable application state the internal cut flag
`_clipboard_is_cut` is `false` — the UI never stages a cut, so every
internal paste runs with copy semantics. -/
theorem cut_flag_never_set :
    ∀ st : AppState, Reachable st → st.session.clipboard_is_cut = false := by
  intro st h
  induction h with
  | init fs sys => rfl
  | step st op _ ih =>
    cases op with
    | copy selection =>
      show (on_copy selection st.session st.sys).1.clipboard_is_cut = false
      by_cases hp : (selected_paths selection).isEmpty = true
      · simp [on_copy, hp, ih]
      · simp [on_copy, hp]
    | paste env md dest_dir =>
      exact on_paste_cut_flag ih
    | delete env selection confirmed =>
      exact ih

/-- Witness for C2 at a concrete reachable state: after a copy of `/a`
from the initial state, the cut flag is still `false`. -/
theorem cut_flag_never_set_witness :
    (step ⟨⟨[], false⟩, [("/a", FsNode.file "A")], ⟨none⟩⟩
      (Op.copy ["/a"])).session.clipboard_is_cut = false :=
  cut_flag_never_set _
    (Reachable.step _ _ (Reachable.init [("/a", FsNode.file "A")] ⟨none⟩))

/-- C3: an entry whose source path resolves to the destination directory
itself is rejected as a self-paste in both the system-clipboard and the
internal-clipboard branch, independent of cut/copy mode: the filesystem is
returned unchanged for that entry and both loops continue with the
remaining entries. -/
theorem self_paste_rejected (env : Env) (isCut : Bool) (dest_dir src : String) (fs : FS)
    (hex : os_path_exists fs src = true)
    (hself : (env.abspath src == env.abspath dest_dir) = true) :
    pasteEntryInternal env isCut dest_dir src fs = (fs, EntryResult.selfPaste)
    ∧ pasteEntrySystem env dest_dir src fs = (fs, EntryResult.selfPaste)
    ∧ (∀ rest n failed, pasteLoopInternal env isCut dest_dir (src :: rest) fs n failed
        = pasteLoopInternal env isCut dest_dir rest fs n failed)
    ∧ (∀ rest, pasteLoopSystem env dest_dir (src :: rest) fs
        = ((pasteLoopSystem env dest_dir rest fs).1,
           EntryResult.selfPaste :: (pasteLoopSystem env dest_dir rest fs).2)) := by
  have h1 : pasteEntryInternal env isCut dest_dir src fs = (fs, EntryResult.selfPaste) := by
    simp [pasteEntryInternal, hex, hself]
  have h2 : pasteEntrySystem env dest_dir src fs = (fs, EntryResult.selfPaste) := by
    simp [pasteEntrySystem, hex, hself]
  refine ⟨h1, h2, ?_, ?_⟩
  · intro rest n failed
    simp [pasteLoopInternal, h1]
  · intro rest
    simp [pasteLoopSystem, h2]

/-- Witness for C3: pasting the destination directory `/d` into itself is
rejected with the filesystem unchanged. -/
theorem self_paste_rejected_witness :
    os_path_exists [("/d", FsNode.dir)] "/d" = true
    ∧ (envW.abspath "/d" == envW.abspath "/d") = true
    ∧ pasteEntryInternal envW true "/d" "/d" [("/d", FsNode.dir)]
        = ([("/d", FsNode.dir)], EntryResult.selfPaste) :=
  ⟨rfl, rfl,
    (self_paste_rejected envW true "/d" "/d" [("/d", FsNode.dir)] rfl rfl).1⟩

/-- C8 (counterexample): the claim says a vanished source is silently
skipped at delete time with no error surfaced, but `on_delete` has no
existence pre-check: deleting the missing path `/gone` surfaces a
`FileNotFoundError`-style warning while still reporting one attempted
removal. -/
theorem delete_vanished_surfaces_warning :
    on_delete envW ["/gone"] true [("/d", FsNode.dir)]
      = ([("/d", FsNode.dir)], some 1, ["No such file or directory: /gone"])
    ∧ (["No such file or directory: /gone"] : List String) ≠ [] := by
  constructor
  · rfl
  · decide

/-- C8 (amended): a source path that no longer exists at paste time is
silently skipped in both paste branches — not failed, not counted — and
the paste loop continues with the remaining entries; at delete time there
is no existence pre-check: the removal primitive raises on the vanished
path, the error is surfaced as a warning, and processing of the remaining
entries continues (the attempted count still includes the entry). -/
theorem vanished_source_handling (env : Env) (isCut : Bool) (dest_dir src : String)
    (fs : FS) (p : String)
    (hex : os_path_exists fs src = false)
    (hpe : os_path_exists fs p = false) (hfr : env.faultRemove p = none) :
    pasteEntryInternal env isCut dest_dir src fs = (fs, EntryResult.skippedMissing)
    ∧ pasteEntrySystem env dest_dir src fs = (fs, EntryResult.skippedMissing)
    ∧ (∀ rest n failed, pasteLoopInternal env isCut dest_dir (src :: rest) fs n failed
        = pasteLoopInternal env isCut dest_dir rest fs n failed)
    ∧ (∀ rest, deleteLoop env (p :: rest) fs
        = ((deleteLoop env rest fs).1,
           ("No such file or directory: " ++ p) :: (deleteLoop env rest fs).2)) := by
  have h1 : pasteEntryInternal env isCut dest_dir src fs = (fs, EntryResult.skippedMissing) := by
    simp [pasteEntryInternal, hex]
  have h2 : pasteEntrySystem env dest_dir src fs = (fs, EntryResult.skippedMissing) := by
    simp [pasteEntrySystem, hex]
  have hdir : os_path_isdir fs p = false := os_path_isdir_false_of_not_exists hpe
  have hrm : os_remove env fs p
      = Except.error ("No such file or directory: " ++ p) := by
    simp [os_remove, hfr, lookup_eq_none_of_not_exists hpe]
  refine ⟨h1, h2, ?_, ?_⟩
  · intro rest n failed
    simp [pasteLoopInternal, h1]
  · intro rest
    simp [deleteLoop, hdir, hrm]

/-- Witness for C8 (amended) at a concrete state: `/s/x` has vanished
before a cut paste and is skipped without being recorded as failed. -/
theorem vanished_source_handling_witness :
    os_path_exists [("/d", FsNode.dir)] "/s/x" = false
    ∧ os_path_exists [("/d", FsNode.dir)] "/gone" = false
    ∧ envW.faultRemove "/gone" = none
    ∧ pasteEntryInternal envW true "/d" "/s/x" [("/d", FsNode.dir)]
        = ([("/d", FsNode.dir)], EntryResult.skippedMissing) :=
  ⟨rfl, rfl, rfl,
    (vanished_source_handling envW true "/d" "/s/x" [("/d", FsNode.dir)] "/gone"
      rfl rfl rfl).1⟩

/-- C9: a confirmed delete on a non-empty selection reports the number of
attempted entries — the size of the collected selection — independent of
how many deletions succeeded, and a failing entry (here: a removal
primitive rejecting with an OS error) is reported as a warning while the
loop continues with the remaining entries unchanged. -/
theorem delete_counts_attempts (env : Env) (selection : List String) (fs : FS)
    (p e : String) (rest : List String)
    (hne : (selected_paths selection).isEmpty = false)
    (hdir : os_path_isdir fs p = false)
    (hf : env.faultRemove p = some e) :
    (on_delete env selection true fs).2.1 = some (selected_paths selection).length
    ∧ deleteLoop env (p :: rest) fs
        = ((deleteLoop env rest fs).1, e :: (deleteLoop env rest fs).2) := by
  constructor
  · simp [on_delete, hne]
  · have hrm : os_remove env fs p = Except.error e := by
      simp [os_remove, hf]
    simp [deleteLoop, hdir, hrm]

/-- Witness for C9: deleting the selection `["/a", "/zz"]` (with `/zz`
rejected by a permission error) still reports two attempted entries, and
the failing entry leaves the loop processing the rest. -/
theorem delete_counts_attempts_witness :
    (selected_paths ["/a", "/zz"]).isEmpty = false
    ∧ os_path_isdir [("/a", FsNode.file "A")] "/zz" = false
    ∧ envFault.faultRemove "/zz" = some "permission denied"
    ∧ (on_delete envFault ["/a", "/zz"] true [("/a", FsNode.file "A")]).2.1 = some 2
    ∧ deleteLoop envFault ["/zz", "/a"] [("/a", FsNode.file "A")]
        = ((deleteLoop envFault ["/a"] [("/a", FsNode.file "A")]).1,
           "permission denied" :: (deleteLoop envFault ["/a"] [("/a", FsNode.file "A")]).2) := by
  have h := delete_counts_attempts envFault ["/a", "/zz"] [("/a", FsNode.file "A")]
    "/zz" "permission denied" ["/a"] rfl rfl rfl
  exact ⟨rfl, rfl, rfl, h.1, h.2⟩

/-- C5: with a valid destination, a paste first consults the OS clipboard:
when mime data with URLs is present the local files among them are the
source set, the session (internal Clipboard Entry) is returned untouched,
and every system-branch entry behaves exactly like an internal copy-mode
entry (copy semantics, never cut); the internal clipboard is consulted
only when there is no mime data or it carries no URLs, and an empty
internal clipboard then yields the `EmptyClipboard` outcome with no
filesystem change. -/
theorem paste_source_priority (env : Env) (md : Option MimeData) (s : Session)
    (dest_dir : String) (fs : FS)
    (hd : os_path_isdir fs dest_dir = true) :
    (∀ m, md = some m → m.urls.isEmpty = false →
      on_paste env md s dest_dir fs
        = (s, (pasteLoopSystem env dest_dir (localPaths m) fs).1,
           PasteOutcome.system (localPaths m).length
             (pasteLoopSystem env dest_dir (localPaths m) fs).2))
    ∧ (∀ d src fs0, pasteEntrySystem env d src fs0 = pasteEntryInternal env false d src fs0)
    ∧ (md = none → on_paste env md s dest_dir fs = on_paste_internal env s dest_dir fs)
    ∧ (∀ m, md = some m → m.urls.isEmpty = true →
        on_paste env md s dest_dir fs = on_paste_internal env s dest_dir fs)
    ∧ (s.clipboard_paths = [] →
        on_paste_internal env s dest_dir fs = (s, fs, PasteOutcome.emptyClipboard)) := by
  refine ⟨?_, ?_, ?_, ?_, ?_⟩
  · rintro m rfl hu
    simp [on_paste, hd, hu]
  · intro d src fs0
    rfl
  · rintro rfl
    simp [on_paste, hd]
  · rintro m rfl hu
    simp [on_paste, hd, hu]
  · intro h
    simp [on_paste_internal, h]

/-- Witness for C5: with a local file on the OS clipboard, the paste takes
the system branch and leaves the staged internal clipboard untouched. -/
theorem paste_source_priority_witness :
    os_path_isdir fsA "/d" = true
    ∧ on_paste envW (some ⟨[⟨true, "/s/a.txt"⟩]⟩) ⟨["/zz"], false⟩ "/d" fsA
        = (⟨["/zz"], false⟩,
           (pasteLoopSystem envW "/d" (localPaths ⟨[⟨true, "/s/a.txt"⟩]⟩) fsA).1,
           PasteOutcome.system (localPaths ⟨[⟨true, "/s/a.txt"⟩]⟩).length
             (pasteLoopSystem envW "/d" (localPaths ⟨[⟨true, "/s/a.txt"⟩]⟩) fsA).2) :=
  ⟨rfl,
    (paste_source_priority envW (some ⟨[⟨true, "/s/a.txt"⟩]⟩) ⟨["/zz"], false⟩ "/d" fsA
      rfl).1 ⟨[⟨true, "/s/a.txt"⟩]⟩ rfl rfl⟩

/-- C1 (code bug evidence): a cut paste of `["/s/a", "/s/b"]` in which
`/s/a` moves successfully and `/s/b` fails both the move and the fallback
leaves the internal clipboard holding the succeeded entry `/s/a` — the
code's `successful_paths` — instead of the failed entry `/s/b` that the
spec (and the code's own comment, line 578) says must remain for a retry;
the cut flag is retained. -/
theorem cut_paste_clipboard_update_bug :
    on_paste envC1 none ⟨["/s/a", "/s/b"], true⟩ "/d" fsC1
      = (⟨["/s/a"], true⟩,
         [("/d/a", FsNode.file "A"), ("/d", FsNode.dir), ("/s", FsNode.dir),
          ("/s/b", FsNode.file "B")],
         PasteOutcome.internal 1 [("/s/b", "copy denied")])
    ∧ (["/s/a"] : List String) ≠ ["/s/b"] := by
  constructor
  · rfl
  · decide

/-- The unresolved per-entry destination of lines 490-491 and 530-531:
destination directory joined with the source's basename. -/
def origDest (dest_dir src : String) : String :=
  joinPath dest_dir (basename src)

/-- The conflict-resolved destination of lines 497-499 and 539-541:
the `_copy` suffix inserted between the basename's stem and extension as
split by `os.path.splitext`. -/
def copyDest (dest_dir src : String) : String :=
  joinPath dest_dir ((splitext (basename src)).1 ++ "_copy" ++ (splitext (basename src)).2)

/-- C6 (counterexample): the claim says a colliding directory gets the
`_copy` suffix appended to its whole name, but the code applies
`os.path.splitext` to directories too: pasting the directory `data.old`
into `/d` (which already holds `data.old`) resolves the destination to
`/d/data_copy.old`, not `/d/data.old_copy`, and the paste creates the
former and never the latter. -/
theorem conflict_rename_dir_counterexample :
    computedDest "/d" "/s/data.old" fsC6 = "/d/data_copy.old"
    ∧ ("/d/data_copy.old" : String) ≠ "/d/data.old_copy"
    ∧ FS.lookup (on_paste envW none ⟨["/s/data.old"], false⟩ "/d" fsC6).2.1
        "/d/data.old_copy" = none
    ∧ FS.lookup (on_paste envW none ⟨["/s/data.old"], false⟩ "/d" fsC6).2.1
        "/d/data_copy.old" = some FsNode.dir := by
  refine ⟨rfl, ?_, rfl, rfl⟩
  decide

/-- C6 (amended): an entry whose computed destination already exists is
renamed exactly once by inserting the fixed `_copy` suffix between the
stem and the extension of the basename as split by `os.path.splitext` —
uniformly for files and directories, so a dotted directory name receives
the suffix before its final dot-segment rather than appended to the whole
name — with no further incrementing on a second collision (the resolved
name is used as-is and the copy primitive overwrites or errors); for a
file entry the copy lands at the `_copy` name and the node at the original
destination is untouched (so pasting `a.txt` onto an existing `a.txt`
yields `a_copy.txt` with the original's content intact). -/
theorem conflict_rename_once (env : Env) (dest_dir src : String) (fs : FS) (c : String)
    (hsrc : FS.lookup fs src = some (FsNode.file c))
    (hself : (env.abspath src == env.abspath dest_dir) = false)
    (hcol : os_path_exists fs (origDest dest_dir src) = true)
    (hnf : env.faultCopy2 src (copyDest dest_dir src) = none)
    (hnd : FS.lookup fs (copyDest dest_dir src) ≠ some FsNode.dir) :
    computedDest dest_dir src fs = copyDest dest_dir src
    ∧ pasteEntryInternal env false dest_dir src fs
        = (FS.set fs (copyDest dest_dir src) (FsNode.file c), EntryResult.ok)
    ∧ FS.lookup (FS.set fs (copyDest dest_dir src) (FsNode.file c)) (origDest dest_dir src)
        = FS.lookup fs (origDest dest_dir src) := by
  unfold origDest at hcol
  have hD : computedDest dest_dir src fs = copyDest dest_dir src := by
    simp [computedDest, copyDest, hcol]
  have hex := os_path_exists_of_lookup hsrc
  have hdir := os_path_isdir_file hsrc
  have hc2 : shutil_copy2 env fs src (copyDest dest_dir src)
      = Except.ok (FS.set fs (copyDest dest_dir src) (FsNode.file c)) := by
    unfold shutil_copy2
    rw [hnf, hsrc]
    cases hl : FS.lookup fs (copyDest dest_dir src) with
    | none => simp
    | some n =>
      cases n with
      | file d => simp
      | dir => exact absurd hl hnd
  refine ⟨hD, ?_, ?_⟩
  · simp [pasteEntryInternal, hex, hself, hdir, hD, hc2]
  · exact FS.lookup_set_ne (origDest_ne_copyName dest_dir src)

/-- Witness for C6 (amended): pasting `/s/a.txt` into `/d` already
holding `a.txt` produces `/d/a_copy.txt` with content `src` while
`/d/a.txt` keeps its original content. -/
theorem conflict_rename_once_witness :
    FS.lookup fsA "/s/a.txt" = some (FsNode.file "src")
    ∧ (envW.abspath "/s/a.txt" == envW.abspath "/d") = false
    ∧ os_path_exists fsA (origDest "/d" "/s/a.txt") = true
    ∧ copyDest "/d" "/s/a.txt" = "/d/a_copy.txt"
    ∧ origDest "/d" "/s/a.txt" = "/d/a.txt"
    ∧ FS.lookup fsA "/d/a.txt" = some (FsNode.file "orig")
    ∧ pasteEntryInternal envW false "/d" "/s/a.txt" fsA
        = (FS.set fsA (copyDest "/d" "/s/a.txt") (FsNode.file "src"), EntryResult.ok)
    ∧ FS.lookup (FS.set fsA (copyDest "/d" "/s/a.txt") (FsNode.file "src"))
        (origDest "/d" "/s/a.txt") = FS.lookup fsA (origDest "/d" "/s/a.txt") := by
  have h := conflict_rename_once envW "/d" "/s/a.txt" fsA "src" rfl rfl rfl rfl
    (by decide)
  exact ⟨rfl, rfl, rfl, rfl, rfl, rfl, h.2.1, h.2.2⟩

/-- An environment in which both the move of `/s/b` and the copy fallback
for `/s/b` fail, used as the C7 witness scenario. -/
def envC7 : Env :=
  { envW with
    faultMove := fun s _ => if s == "/s/b" then some "move denied" else none
    faultCopy2 := fun s _ => if s == "/s/b" then some "copy denied" else none }

/-- C7: for a cut-mode paste entry that passes the pre-checks, the atomic
move is attempted first and its success decides the entry alone; when the
move fails the copy-then-delete-source fallback runs (`copy2`+`remove` for
files, `copytree`+`rmtree` for directories) and its success marks the
entry ok; when the fallback also fails the entry is recorded as failed
with the fallback's error message (not the move's), the source's node is
unchanged (the failing primitive is atomic and the copy stage never
touches the source), and the loop continues with the remaining entries,
appending the entry to the failed list. -/
theorem cut_move_with_fallback (env : Env) (dest_dir src : String) (fs : FS)
    (hex : os_path_exists fs src = true)
    (hself : (env.abspath src == env.abspath dest_dir) = false) :
    (∀ fs1, shutil_move env fs src (computedDest dest_dir src fs) = Except.ok fs1 →
      pasteEntryInternal env true dest_dir src fs = (fs1, EntryResult.ok))
    ∧ (∀ e1 fs1 fs2,
        shutil_move env fs src (computedDest dest_dir src fs) = Except.error e1 →
        os_path_isdir fs src = false →
        shutil_copy2 env fs src (computedDest dest_dir src fs) = Except.ok fs1 →
        os_remove env fs1 src = Except.ok fs2 →
        pasteEntryInternal env true dest_dir src fs = (fs2, EntryResult.ok))
    ∧ (∀ e1 e2,
        shutil_move env fs src (computedDest dest_dir src fs) = Except.error e1 →
        os_path_isdir fs src = false →
        shutil_copy2 env fs src (computedDest dest_dir src fs) = Except.error e2 →
        pasteEntryInternal env true dest_dir src fs = (fs, EntryResult.failed e2))
    ∧ (∀ e1 e2 fs1,
        shutil_move env fs src (computedDest dest_dir src fs) = Except.error e1 →
        os_path_isdir fs src = false →
        shutil_copy2 env fs src (computedDest dest_dir src fs) = Except.ok fs1 →
        os_remove env fs1 src = Except.error e2 →
        pasteEntryInternal env true dest_dir src fs = (fs1, EntryResult.failed e2)
        ∧ (inSubtree (computedDest dest_dir src fs) src = false →
            FS.lookup fs1 src = FS.lookup fs src))
    ∧ (∀ e1 e2,
        shutil_move env fs src (computedDest dest_dir src fs) = Except.error e1 →
        os_path_isdir fs src = true →
        shutil_copytree env fs src (computedDest dest_dir src fs) = Except.error e2 →
        pasteEntryInternal env true dest_dir src fs = (fs, EntryResult.failed e2))
    ∧ (∀ e1 e2 fs1,
        shutil_move env fs src (computedDest dest_dir src fs) = Except.error e1 →
        os_path_isdir fs src = true →
        shutil_copytree env fs src (computedDest dest_dir src fs) = Except.ok fs1 →
        shutil_rmtree env fs1 src = Except.error e2 →
        pasteEntryInternal env true dest_dir src fs = (fs1, EntryResult.failed e2)
        ∧ (inSubtree (computedDest dest_dir src fs) src = false →
            FS.lookup fs1 src = FS.lookup fs src))
    ∧ (∀ fs' e2 rest n failed,
        pasteEntryInternal env true dest_dir src fs = (fs', EntryResult.failed e2) →
        pasteLoopInternal env true dest_dir (src :: rest) fs n failed
          = pasteLoopInternal env true dest_dir rest fs' n (failed ++ [(src, e2)])) := by
  refine ⟨?_, ?_, ?_, ?_, ?_, ?_, ?_⟩
  · intro fs1 hm
    simp [pasteEntryInternal, hex, hself, hm]
  · intro e1 fs1 fs2 hm hdir hc2 hrm
    simp [pasteEntryInternal, hex, hself, hm, hdir, hc2, hrm]
  · intro e1 e2 hm hdir hc2
    simp [pasteEntryInternal, hex, hself, hm, hdir, hc2]
  · intro e1 e2 fs1 hm hdir hc2 hrm
    refine ⟨?_, ?_⟩
    · simp [pasteEntryInternal, hex, hself, hm, hdir, hc2, hrm]
    · intro hins
      obtain ⟨c, _, rfl⟩ := shutil_copy2_ok_inv hc2
      exact FS.lookup_set_ne (ne_of_inSubtree_false hins)
  · intro e1 e2 hm hdir hct
    simp [pasteEntryInternal, hex, hself, hm, hdir, hct]
  · intro e1 e2 fs1 hm hdir hct hrt
    refine ⟨?_, ?_⟩
    · simp [pasteEntryInternal, hex, hself, hm, hdir, hct, hrt]
    · intro hins
      exact copytree_ok_lookup hct hins
  · intro fs' e2 rest n failed hentry
    simp [pasteLoopInternal, hentry]

/-- Witness for C7: the cut of `/s/b` fails its move and its copy
fallback, so the entry is recorded failed with the fallback's message and
the filesystem — the source included — is unchanged. -/
theorem cut_move_with_fallback_witness :
    os_path_exists fsC1 "/s/b" = true
    ∧ (envC7.abspath "/s/b" == envC7.abspath "/d") = false
    ∧ shutil_move envC7 fsC1 "/s/b" (computedDest "/d" "/s/b" fsC1)
        = Except.error "move denied"
    ∧ os_path_isdir fsC1 "/s/b" = false
    ∧ shutil_copy2 envC7 fsC1 "/s/b" (computedDest "/d" "/s/b" fsC1)
        = Except.error "copy denied"
    ∧ pasteEntryInternal envC7 true "/d" "/s/b" fsC1
        = (fsC1, EntryResult.failed "copy denied") := by
  have h := (cut_move_with_fallback envC7 "/d" "/s/b" fsC1 rfl rfl).2.2.1
    "move denied" "copy denied" rfl rfl rfl
  exact ⟨rfl, rfl, rfl, rfl, rfl, h⟩

end FileExplorer
